import Mathlib

/-!
Verification development for roff2tex.py, a RUNOFF-to-TeX transpiler.
Python strings are modelled as `List Char`; the pyparsing grammar is embedded
as a small expression language with the library's documented matching
semantics (leading-whitespace skip before tokens, MatchFirst `|`,
longest-match `Or` `^`); the driver loop is a fold over the input lines with
explicit document state, stdout/stderr streams and a halt marker.
-/

namespace Roff2Tex

/-! ### Case-insensitive replace (roff2tex.py lines 14-22) -/

/-- Is there a case-insensitive match of `old` in `text` at index `i`?
Both sides are lowercased, as `text.lower().find(old.lower())` does. -/
def ciMatchAt (old text : List Char) (i : Nat) : Bool :=
  ((text.drop i).take old.length).map Char.toLower == old.map Char.toLower

/-- `text.lower().find(old.lower(), start)` (line 17): the least index `i`
with `start ≤ i`, the match window in bounds, and a case-insensitive match;
`none` models the return value -1. -/
def findCI (old text : List Char) (start : Nat) : Option Nat :=
  (List.range (text.length + 1)).find? fun i =>
    decide (start ≤ i) && decide (i + old.length ≤ text.length) && ciMatchAt old text i

/-- The while-loop of `ireplace` (lines 16-21), with the current `text` and
scan index `idx` as explicit state.  `fuel` only bounds the iteration count
so the definition is structurally recursive: every iteration of the source
loop removes at least one character ahead of the scan index (for a nonempty
pattern), so `text.length + 1` iterations always suffice.  The source loops
forever on an empty pattern; that degenerate case (never exercised by any
caller) is cut off by the `old.length = 0` guard. -/
def ireplaceLoop (old new : List Char) : Nat → List Char → Nat → List Char
  | 0, text, _ => text
  | fuel + 1, text, idx =>
    if old.length = 0 then text
    else if idx < text.length then
      match findCI old text idx with
      | none => text
      | some i =>
          ireplaceLoop old new fuel
            (text.take i ++ new ++ text.drop (i + old.length)) (i + new.length)
    else text

/-- roff2tex.py `ireplace` (lines 14-22): case-insensitive replace that
resumes scanning just after each inserted replacement. -/
def ireplace (old new text : List Char) : List Char :=
  ireplaceLoop old new (text.length + 1) text 0

/-! ### Wall clock and the strftime conversions the source uses -/

/-- A wall-clock instant: the fields `time.strftime` reads in this program. -/
structure Clock where
  year : Nat
  month : Nat
  day : Nat
  hour : Nat
  minute : Nat
  second : Nat
deriving DecidableEq

/-- Zero-padded two-digit decimal field, as the strftime conversions
%d %m %H %M %S render values below 100. -/
def two (n : Nat) : List Char :=
  if n < 10 then '0' :: Nat.toDigits 10 n else Nat.toDigits 10 n

/-- strftime %B: full month name (C locale). -/
def monthName : Nat → List Char
  | 1 => "January".toList
  | 2 => "February".toList
  | 3 => "March".toList
  | 4 => "April".toList
  | 5 => "May".toList
  | 6 => "June".toList
  | 7 => "July".toList
  | 8 => "August".toList
  | 9 => "September".toList
  | 10 => "October".toList
  | 11 => "November".toList
  | 12 => "December".toList
  | _ => "".toList

/-- strftime %Y (years 1000-9999 render as their decimal digits). -/
def yearStr (c : Clock) : List Char := Nat.toDigits 10 c.year

/-- strftime "%d %B %Y". -/
def strfDate (c : Clock) : List Char :=
  two c.day ++ [' '] ++ monthName c.month ++ [' '] ++ yearStr c

/-- strftime "%H:%M:%S". -/
def strfTime (c : Clock) : List Char :=
  two c.hour ++ [':'] ++ two c.minute ++ [':'] ++ two c.second

/-! ### Flag table (roff2tex.py lines 91-93): a Python bidict -/

/-- The flag-character table: a bidict with 1-character keys (trigger
characters) and flag-name values, modelled as an association list whose
two projections stay injective. -/
abbrev FlagTable := List (Char × String)

/-- Initial table (lines 91-93): trigger `^` bound to `uppercase`. -/
def flagchars : FlagTable := [('^', "uppercase")]

/-- Forward lookup `flagchars[ch]` / membership `ch in flagchars`. -/
def lookupKey (m : FlagTable) (k : Char) : Option String :=
  (m.find? (fun p => p.1 == k)).map (fun p => p.2)

/-- Inverse lookup `flagchars.inverse[name]`. -/
def lookupVal (m : FlagTable) (v : String) : Option Char :=
  (m.find? (fun p => p.2 == v)).map (fun p => p.1)

/-- `flagchars[k] = v` on a Python bidict with the default duplication
policy OnDup(key=DROP_OLD, val=RAISE): writing an already-present pair is a
no-op, a value already held by a *different* key raises
ValueDuplicationError, and otherwise the old entry for the key (if any) is
dropped and the new pair appended. -/
def bidictPut (m : FlagTable) (k : Char) (v : String) : Except String FlagTable :=
  match lookupVal m v with
  | some k' => if k' = k then Except.ok m else Except.error "ValueDuplicationError"
  | none => Except.ok (m.filter (fun p => p.1 != k) ++ [(k, v)])

/-- roff2tex.py `cmdh_flag` (lines 171-173): `flagchars[p[flagchar]] = p[flag]`. -/
def cmdh_flag (m : FlagTable) (flag : String) (flagchar : Char) : Except String FlagTable :=
  bidictPut m flagchar flag

/-- roff2tex.py `cmdh_noflag` (lines 175-177):
`if p[flag] in flagchars: del flagchars[p[flag]]`.  The membership test is
against the table KEYS (the trigger characters, all strings of length one),
so the flag NAME only ever hits when it is a single character equal to a
registered trigger character. -/
def cmdh_noflag (m : FlagTable) (flag : String) : FlagTable :=
  match flag.toList with
  | [c] => if (lookupKey m c).isSome then m.filter (fun p => p.1 != c) else m
  | _ => m

/-- Both projections of the table are injective: the bidict invariant. -/
def FlagBij (m : FlagTable) : Prop :=
  (m.map (fun p => p.1)).Nodup ∧ (m.map (fun p => p.2)).Nodup

instance : DecidablePred FlagBij := fun m => by unfold FlagBij; infer_instance

/-! ### Text transformer `textline` (roff2tex.py lines 96-156) -/

/-- The per-character TeX escape table of lines 150-154. -/
def escMap (c : Char) : List Char :=
  if c = '_' then ['\\', '_']
  else if c = '$' then ['\\', '$']
  else if c = '#' then ['\\', '#']
  else if c = '<' then ['$', '<', '$']
  else if c = '>' then ['$', '>', '$']
  else [c]

/-- Python `s.replace(pat, rep)` for a single-character pattern: every
occurrence is rewritten left to right and the inserted text is not
rescanned, which for a one-character pattern is a per-character map. -/
def replaceChar (c : Char) (r : List Char) (s : List Char) : List Char :=
  s.flatMap (fun x => if x = c then r else [x])

/-- The chain of five replaces of lines 150-154, in source order. -/
def texEscape (s : List Char) : List Char :=
  replaceChar '>' ['$', '>', '$']
    (replaceChar '<' ['$', '<', '$']
      (replaceChar '#' ['\\', '#']
        (replaceChar '$' ['\\', '$']
          (replaceChar '_' ['\\', '_'] s))))

/-- The warning of line 127: f">> WARN: Unsupported flag {name} ({ch})\n". -/
def warnUnsupported (name : String) (ch : Char) : String :=
  ">> WARN: Unsupported flag " ++ name ++ " (" ++ String.singleton ch ++ ")\n"

/-- The local state of the character loop of `textline`. -/
structure ScanSt where
  so : List Char
  eol : List Char
  f_accept : Bool
  f_uppercase : Bool
  f_substitute : Bool
  warns : List String
deriving DecidableEq

def initScan : ScanSt := ⟨[], [], false, false, false, []⟩

/-- One iteration of the character loop (lines 106-134). -/
def scanChar (fc : FlagTable) (in_literal : Bool) (st : ScanSt) (ch : Char) : ScanSt :=
  if st.f_accept then
    { st with so := st.so ++ [ch], f_accept := false }
  else
    match (if in_literal then none else lookupKey fc ch) with
    | some name =>
        if name = "accept" then { st with f_accept := true }
        else if name = "uppercase" then { st with f_uppercase := true }
        else if name = "underline" then
          { st with so := st.so ++ "\\underline\x7b".toList, eol := '\x7d' :: st.eol }
        else if name = "substitute" then
          { st with f_substitute := true, so := st.so ++ [ch] }
        else
          { st with warns := st.warns ++ [warnUnsupported name ch] }
    | none =>
        if st.f_uppercase then { st with so := st.so ++ [ch.toUpper], f_uppercase := false }
        else { st with so := st.so ++ [ch] }

/-- roff2tex.py `textline` (lines 96-156).  The wall clock is an explicit
argument; the second component collects the stderr warnings.  Note line 142
of the source formats the `month` macro with strftime "%M" (minutes). -/
def textline (fc : FlagTable) (in_literal : Bool) (clk : Clock) (s : List Char) :
    List Char × List String :=
  let st := s.foldl (scanChar fc in_literal) initScan
  let so :=
    if st.f_substitute then
      match lookupVal fc "substitute" with
      | some c =>
          let sub := [c, c]
          let so := ireplace (sub ++ "date".toList) (strfDate clk) st.so
          let so := ireplace (sub ++ "time".toList) (strfTime clk) so
          let so := ireplace (sub ++ "year".toList) (yearStr clk) so
          let so := ireplace (sub ++ "month".toList) (two clk.minute) so
          let so := ireplace (sub ++ "day".toList) (two clk.day) so
          let so := ireplace (sub ++ "hours".toList) (two clk.hour) so
          let so := ireplace (sub ++ "minutes".toList) (two clk.minute) so
          let so := ireplace (sub ++ "seconds".toList) (two clk.second) so
          so
      | none => st.so
    else st.so
  let so := if in_literal then so else texEscape so
  (so ++ st.eol, st.warns)

/-! ### pyparsing embedding

The grammar of roff2tex.py lines 28-83 is embedded as a small expression
language.  Matching follows pyparsing's documented semantics: every token
skips leading whitespace (" \t\n") before matching, `|` (MatchFirst) takes
the first alternative that matches, `^` (Or) takes the longest, `[...]`
repeats zero or more times, and `expr("name")` records the matched token
under a results name. -/

/-- A parsed token: a string, or an integer produced by the parse actions of
`pp.common.integer` / `pp.common.signed_integer`. -/
inductive PVal where
  | str (s : String)
  | int (i : Int)
deriving DecidableEq

/-- A successful match: end position, token list, and named results. -/
structure PRes where
  stop : Nat
  toks : List PVal
  named : List (String × PVal)
deriving DecidableEq

/-- pyparsing's default whitespace characters. -/
def isWsChar (c : Char) : Bool := c == ' ' || c == '\t' || c == '\n'

/-- Position after skipping leading whitespace from `pos`. -/
def skipWsFrom (s : List Char) (pos : Nat) : Nat :=
  pos + ((s.drop pos).takeWhile isWsChar).length

/-- Does the literal occur at exactly position `pos`? -/
def litAt (lit : List Char) (s : List Char) (pos : Nat) : Bool :=
  (s.drop pos).take lit.length == lit

def isAsciiAlpha (c : Char) : Bool :=
  ('a' ≤ c && c ≤ 'z') || ('A' ≤ c && c ≤ 'Z')

def digitsToNat (ds : List Char) : Nat :=
  ds.foldl (fun a c => a * 10 + (c.toNat - '0'.toNat)) 0

/-- `pp.Literal(str)`. -/
def runLit (str : String) (s : List Char) (pos : Nat) : Option PRes :=
  let p := skipWsFrom s pos
  if litAt str.toList s p then some ⟨p + str.length, [.str str], []⟩ else none

/-- `pp.Word(pp.alphas)`: longest nonempty run of ASCII letters. -/
def runWordAlphas (s : List Char) (pos : Nat) : Option PRes :=
  let p := skipWsFrom s pos
  let w := (s.drop p).takeWhile isAsciiAlpha
  if w.length = 0 then none
  else some ⟨p + w.length, [.str (String.mk w)], []⟩

/-- `pp.Regex(".")`: any single character other than a newline. -/
def runAnyChar (s : List Char) (pos : Nat) : Option PRes :=
  let p := skipWsFrom s pos
  match s.drop p with
  | c :: _ => if c = '\n' then none else some ⟨p + 1, [.str (String.singleton c)], []⟩
  | [] => none

/-- `pp.common.integer`: Regex(\d+) converted to an integer. -/
def runUInteger (s : List Char) (pos : Nat) : Option PRes :=
  let p := skipWsFrom s pos
  let w := (s.drop p).takeWhile Char.isDigit
  if w.length = 0 then none
  else some ⟨p + w.length, [.int (digitsToNat w)], []⟩

/-- `pp.common.signed_integer`: Regex([+-]?\d+) converted to an integer. -/
def runSInteger (s : List Char) (pos : Nat) : Option PRes :=
  let p := skipWsFrom s pos
  match s.drop p with
  | c :: rest =>
      if c = '+' ∨ c = '-' then
        let w := rest.takeWhile Char.isDigit
        if w.length = 0 then none
        else
          some ⟨p + 1 + w.length,
            [.int (if c = '-' then -(digitsToNat w : Int) else (digitsToNat w : Int))], []⟩
      else
        let w := (s.drop p).takeWhile Char.isDigit
        if w.length = 0 then none else some ⟨p + w.length, [.int (digitsToNat w)], []⟩
  | [] => none

/-- Body of a pyparsing quoted string after the opening quote: plain
characters (no newline or carriage return), doubled-quote escapes and
backslash escapes, up to and including the closing quote; returns the
number of characters consumed. -/
def quotedBody (q : Char) : List Char → Option Nat
  | [] => none
  | c :: rest =>
      if c = q then
        match rest with
        | c2 :: rest2 => if c2 = q then (quotedBody q rest2).map (· + 2) else some 1
        | [] => some 1
      else if c = '\\' then
        match rest with
        | _ :: rest2 => (quotedBody q rest2).map (· + 2)
        | [] => none
      else if c = '\n' ∨ c = '\r' then none
      else (quotedBody q rest).map (· + 1)

/-- `pp.dbl_quoted_string` / `pp.sgl_quoted_string`; when `strip` is true the
parse action `pp.remove_quotes` is applied to the token (CMD_REQUEST). -/
def runQuoted (q : Char) (strip : Bool) (s : List Char) (pos : Nat) : Option PRes :=
  let p := skipWsFrom s pos
  match s.drop p with
  | c :: rest =>
      if c = q then
        match quotedBody q rest with
        | some n =>
            let tok := (s.drop p).take (1 + n)
            let tok := if strip then (tok.drop 1).dropLast else tok
            some ⟨p + 1 + n, [.str (String.mk tok)], []⟩
        | none => none
      else none
  | [] => none

/-- `pp.rest_of_line`: everything up to the end of the line, without
skipping leading whitespace. -/
def runRestOfLine (s : List Char) (pos : Nat) : Option PRes :=
  let w := (s.drop pos).takeWhile (fun c => c != '\n')
  some ⟨pos + w.length, [.str (String.mk w)], []⟩

/-- Grammar expressions: the pyparsing combinators the source uses. -/
inductive PExpr where
  | lit (s : String)
  | wordAlphas
  | anyChar
  | uinteger
  | sinteger
  | quoted (q : Char) (strip : Bool)
  | restOfLine
  | seq (a b : PExpr)
  | alt (a b : PExpr)
  | orL (a b : PExpr)
  | many (e : PExpr)
  | named (n : String) (e : PExpr)

/-- ZeroOrMore: repeat while the inner expression matches and advances
within bounds.  `fuel` bounds the iteration count (each kept repetition
advances the position, so `s.length + 1` always suffices). -/
def manyLoop (f : List Char → Nat → Option PRes) (s : List Char) :
    Nat → Nat → PRes → PRes
  | 0, _, acc => acc
  | fuel + 1, pos, acc =>
      match f s pos with
      | none => acc
      | some r =>
          if pos < r.stop ∧ r.stop ≤ s.length then
            manyLoop f s fuel r.stop ⟨r.stop, acc.toks ++ r.toks, acc.named ++ r.named⟩
          else acc

/-- Run a grammar expression at a position. -/
def runP : PExpr → List Char → Nat → Option PRes
  | .lit str, s, pos => runLit str s pos
  | .wordAlphas, s, pos => runWordAlphas s pos
  | .anyChar, s, pos => runAnyChar s pos
  | .uinteger, s, pos => runUInteger s pos
  | .sinteger, s, pos => runSInteger s pos
  | .quoted q strip, s, pos => runQuoted q strip s pos
  | .restOfLine, s, pos => runRestOfLine s pos
  | .seq a b, s, pos =>
      match runP a s pos with
      | none => none
      | some ra =>
          match runP b s ra.stop with
          | none => none
          | some rb => some ⟨rb.stop, ra.toks ++ rb.toks, ra.named ++ rb.named⟩
  | .alt a b, s, pos =>
      match runP a s pos with
      | some r => some r
      | none => runP b s pos
  | .orL a b, s, pos =>
      match runP a s pos, runP b s pos with
      | some ra, some rb => if rb.stop > ra.stop then some rb else some ra
      | some ra, none => some ra
      | none, some rb => some rb
      | none, none => none
  | .many e, s, pos => some (manyLoop (runP e) s (s.length + 1) pos ⟨pos, [], []⟩)
  | .named n e, s, pos =>
      match runP e s pos with
      | none => none
      | some r =>
          match r.toks with
          | t :: _ => some ⟨r.stop, r.toks, r.named ++ [(n, t)]⟩
          | [] => some r

/-! The grammar, lines 28-83 of roff2tex.py. -/

def SEPARATOR : PExpr := .many (.alt (.lit " ") (.lit ";"))
def FLAGNAME : PExpr := .wordAlphas

def CMD_APPENDIX : PExpr := .seq (.lit ".AX") (.seq SEPARATOR (.named "text" .restOfLine))
def CMD_BLANK : PExpr := .seq (.lit ".B") (.seq SEPARATOR (.named "n" .uinteger))
def CMD_CENTRE : PExpr := .seq (.lit ".C") (.seq SEPARATOR (.named "text" .restOfLine))
def CMD_HEADING : PExpr :=
  .seq (.lit ".HL") (.seq (.named "n" .uinteger) (.seq SEPARATOR (.named "text" .restOfLine)))
def CMD_FLAG : PExpr :=
  .seq (.lit ".FL") (.seq SEPARATOR (.seq (.named "flag" FLAGNAME) (.named "flagchar" .anyChar)))
def CMD_NOFLAG : PExpr := .seq (.lit ".NFL") (.seq SEPARATOR (.named "flag" FLAGNAME))
def CMD_LISTSTART : PExpr :=
  .seq (.lit ".LS") (.seq SEPARATOR
    (.orL (.named "n" .sinteger)
      (.orL
        (.seq (.named "n" .sinteger)
          (.seq (.lit ",") (.named "bullet" (.alt (.quoted '"' false) (.quoted '\x27' false)))))
        (.named "bullet" (.alt (.quoted '"' false) (.quoted '\x27' false))))))
def CMD_LISTELEM : PExpr := .seq (.lit ".LE") (.seq (.lit ";") (.named "text" .restOfLine))
def CMD_LISTEND : PExpr := .lit ".ELS"
def CMD_LITERAL : PExpr := .alt (.lit ".LT") (.lit ".EL")
def CMD_MARGIN : PExpr := .seq (.alt (.lit ".LM") (.lit ".RM")) (.seq SEPARATOR .uinteger)
def CMD_PAGESIZE : PExpr :=
  .seq (.lit ".PS") (.seq SEPARATOR
    (.seq (.named "lines" .sinteger) (.seq (.lit ",") (.named "chars" .sinteger))))
def CMD_REQUEST : PExpr := .seq (.lit ".REQ") (.seq SEPARATOR (.named "filename" (.quoted '"' true)))

def COMMAND : PExpr :=
  .alt CMD_APPENDIX (.alt CMD_BLANK (.alt CMD_CENTRE (.alt CMD_FLAG (.alt CMD_NOFLAG
    (.alt CMD_HEADING (.alt CMD_LISTSTART (.alt CMD_LISTELEM (.alt CMD_LISTEND
      (.alt CMD_LITERAL (.alt CMD_MARGIN (.alt CMD_PAGESIZE (.alt CMD_REQUEST
        (.alt (.lit ".AJ") (.alt (.lit ".AP") (.alt (.lit ".EBB") (.alt (.lit ".EBO")
          (.alt (.lit ".EUN") (.alt (.lit ".FN") (.lit ".EFN")))))))))))))))))))

/-- Line 83: `parser = COMMAND | pp.rest_of_line("line")`. -/
def parser : PExpr := .alt COMMAND (.named "line" .restOfLine)

/-- `e.parse_string(line, True)`: run at position 0, then require that only
whitespace remains (parse_all appends a whitespace-skipping StringEnd). -/
def parseString (e : PExpr) (line : List Char) : Option PRes :=
  match runP e line 0 with
  | none => none
  | some r => if skipWsFrom line r.stop = line.length then some r else none

/-- Outcome of lines 264-272: raw text line, a directive with its keyword
and named parameters, or an uncaught pyparsing ParseException. -/
inductive Classified where
  | raw (line : String)
  | cmd (kw : String) (dict : List (String × PVal))
  | fail
deriving DecidableEq

def classify (line : List Char) : Classified :=
  match parseString parser line with
  | none => .fail
  | some r =>
      match (r.named.find? (fun p => p.1 == "line")).map (fun p => p.2) with
      | some (PVal.str l) => .raw l
      | _ =>
          match r.toks with
          | PVal.str kw :: _ => .cmd kw r.named
          | _ => .fail

/-! ### Command handlers and the driver loop (roff2tex.py lines 159-281) -/

/-- Python str.rstrip(): trailing whitespace removed. -/
def isPyWs (c : Char) : Bool :=
  c == ' ' || c == '\t' || c == '\n' || c == '\r' || c == '\x0b' || c == '\x0c'

def pyRstrip (s : String) : String :=
  String.mk ((s.toList.reverse.dropWhile isPyWs).reverse)

/-- Python str.strip(). -/
def pyStrip (s : String) : String :=
  String.mk (((s.toList.dropWhile isPyWs).reverse.dropWhile isPyWs).reverse)

def listStartsWith (p s : List Char) : Bool := s.take p.length == p

/-- Python repr of a parsed value, as an f-string renders dict entries. -/
def pyValRepr : PVal → String
  | .str s => "\x27" ++ s ++ "\x27"
  | .int i => toString i

/-- Python repr of `p.as_dict()` for the diagnostic of line 279. -/
def pyDictRepr (d : List (String × PVal)) : String :=
  "\x7b" ++ String.intercalate ", " (d.map (fun p => "\x27" ++ p.1 ++ "\x27: " ++ pyValRepr p.2)) ++ "\x7d"

def getStr (d : List (String × PVal)) (k : String) : String :=
  match (d.find? (fun p => p.1 == k)).map (fun p => p.2) with
  | some (PVal.str s) => s
  | _ => ""

def getInt (d : List (String × PVal)) (k : String) : Int :=
  match (d.find? (fun p => p.1 == k)).map (fun p => p.2) with
  | some (PVal.int i) => i
  | _ => 0

def headChar (s : String) : Char :=
  match s.toList with
  | c :: _ => c
  | [] => ' '

def repeatStr (s : String) (n : Nat) : String := String.join (List.replicate n s)

/-- Document state: the module-level mutable state of the source. -/
structure DocState where
  flagtab : FlagTable
  in_literal : Bool
  in_appendices : Bool
deriving DecidableEq

def initState : DocState := ⟨flagchars, false, false⟩

/-- How a run can stop early: `sys.exit(code)` or an uncaught exception. -/
inductive Halt where
  | exited (code : Nat)
  | raised (msg : String)
deriving DecidableEq

/-- Result of processing: final state, stdout lines, stderr writes, and
whether (and how) the run halted. -/
structure StepOut where
  st : DocState
  out : List String
  err : List String
  halt : Option Halt
deriving DecidableEq

/-- The keys of CMD_HANDLERS (lines 223-237). -/
def CMD_HANDLERS_keys : List String :=
  [".AX", ".B", ".C", ".FL", ".NFL", ".FN", ".EFN", ".HL", ".LS", ".LE", ".ELS", ".LT", ".EL"]

/-- Dispatch through CMD_HANDLERS: each arm is the cmdh_* handler of
lines 162-220 for the given keyword. -/
def applyHandler (clk : Clock) (st : DocState) (kw : String) (d : List (String × PVal)) : StepOut :=
  if kw = ".AX" then
    let pre := if st.in_appendices then [] else ["\\appendix"]
    { st := { st with in_appendices := true },
      out := pre ++ ["\\section\x7b" ++ pyStrip (getStr d "text") ++ "\x7d"],
      err := [], halt := none }
  else if kw = ".B" then
    { st := st, out := List.replicate (getInt d "n").toNat "\\vspace\x7b\\baselineskip\x7d",
      err := [], halt := none }
  else if kw = ".C" then
    let r := textline st.flagtab st.in_literal clk (getStr d "text").toList
    { st := st, out := ["\\centerline\x7b" ++ String.mk r.1 ++ "\x7d"], err := r.2, halt := none }
  else if kw = ".FL" then
    match cmdh_flag st.flagtab (getStr d "flag") (headChar (getStr d "flagchar")) with
    | .ok m => { st := { st with flagtab := m }, out := [], err := [], halt := none }
    | .error e => { st := st, out := [], err := [], halt := some (.raised e) }
  else if kw = ".NFL" then
    { st := { st with flagtab := cmdh_noflag st.flagtab (getStr d "flag") },
      out := [], err := [], halt := none }
  else if kw = ".FN" then
    { st := st, out := ["\\let\\thefootnote\\relax\\footnote \x7b"], err := [], halt := none }
  else if kw = ".EFN" then
    { st := st, out := ["\x7d"], err := [], halt := none }
  else if kw = ".HL" then
    { st := st,
      out := ["\\" ++ repeatStr "sub" ((getInt d "n") - 1).toNat ++ "section\x7b" ++
              pyStrip (getStr d "text") ++ "\x7d"],
      err := [], halt := none }
  else if kw = ".LS" then
    { st := st, out := ["\\begin\x7bitemize\x7d"], err := [], halt := none }
  else if kw = ".LE" then
    let r := textline st.flagtab st.in_literal clk (getStr d "text").toList
    { st := st, out := ["\\item " ++ String.mk r.1], err := r.2, halt := none }
  else if kw = ".ELS" then
    { st := st, out := ["\\end\x7bitemize\x7d"], err := [], halt := none }
  else if kw = ".LT" then
    { st := { st with in_literal := true }, out := ["\\begin\x7bverbatim\x7d"],
      err := [], halt := none }
  else if kw = ".EL" then
    { st := { st with in_literal := false }, out := ["\\end\x7bverbatim\x7d"],
      err := [], halt := none }
  else
    { st := st, out := [], err := [], halt := none }

/-- One iteration of the read loop (lines 250-279) on an input line;
`lnum` is the 1-based line number after the increment of line 252. -/
def stepLine (clk : Clock) (st : DocState) (lnum : Nat) (rawLine : String) : StepOut :=
  let line := pyRstrip rawLine
  if line.length = 0 then
    { st := st, out := [""], err := [], halt := none }
  else if lnum = 1 ∧ listStartsWith "+-".toList line.toList then
    { st := st, out := [], err := [], halt := none }
  else
    match classify line.toList with
    | .fail => { st := st, out := [], err := [], halt := some (.raised "ParseException") }
    | .raw l =>
        if listStartsWith ['.'] line.toList then
          { st := st, out := ["*** Unparsed command: " ++ line], err := [],
            halt := some (.exited 1) }
        else
          let r := textline st.flagtab st.in_literal clk l.toList
          { st := st, out := [String.mk r.1], err := r.2, halt := none }
    | .cmd kw d =>
        if kw ∈ CMD_HANDLERS_keys then applyHandler clk st kw d
        else
          { st := st, out := [],
            err := ["*** Unhandled Cmd [" ++ kw ++ "] PARMS -> " ++ pyDictRepr d ++ "\n"],
            halt := none }

/-- The read loop over the remaining input lines; `lnum` is the number of
lines already consumed.  A halt stops the run: later lines are untouched. -/
def runLines (clk : Clock) : DocState → Nat → List String → StepOut
  | st, _, [] => { st := st, out := [], err := [], halt := none }
  | st, lnum, l :: rest =>
      let r := stepLine clk st (lnum + 1) l
      match r.halt with
      | some _ => r
      | none =>
          let r2 := runLines clk r.st (lnum + 1) rest
          { st := r2.st, out := r.out ++ r2.out, err := r.err ++ r2.err, halt := r2.halt }

/-- A convenient concrete clock for witnesses: 2026-10-12 09:05:07. -/
def clk0 : Clock := ⟨2026, 10, 12, 9, 5, 7⟩

/-! ### Helper lemmas about the character scan and the escape chain -/

theorem scanChar_plain (fc : FlagTable) (lit : Bool) (st : ScanSt) (c : Char)
    (ha : st.f_accept = false) (hu : st.f_uppercase = false)
    (hc : (if lit then none else lookupKey fc c) = none) :
    scanChar fc lit st c = { st with so := st.so ++ [c] } := by
  simp [scanChar, ha, hu, hc]

theorem scan_plain (fc : FlagTable) (lit : Bool) (s : List Char) :
    ∀ st : ScanSt, st.f_accept = false → st.f_uppercase = false →
    (∀ c ∈ s, (if lit then none else lookupKey fc c) = none) →
    s.foldl (scanChar fc lit) st = { st with so := st.so ++ s } := by
  induction s with
  | nil => intro st _ _ _; simp
  | cons c cs ih =>
      intro st ha hu hs
      rw [List.foldl_cons, scanChar_plain fc lit st c ha hu (hs c (by simp))]
      rw [ih { st with so := st.so ++ [c] } (by simpa using ha) (by simpa using hu)
        (fun x hx => hs x (by simp [hx]))]
      simp

theorem replaceChar_append (c : Char) (r a b : List Char) :
    replaceChar c r (a ++ b) = replaceChar c r a ++ replaceChar c r b := by
  simp [replaceChar]

theorem texEscape_append (a b : List Char) :
    texEscape (a ++ b) = texEscape a ++ texEscape b := by
  simp [texEscape, replaceChar_append]

theorem texEscape_cons (c : Char) (cs : List Char) :
    texEscape (c :: cs) = escMap c ++ texEscape cs := by
  have h : (c :: cs) = [c] ++ cs := rfl
  rw [h, texEscape_append]
  congr 1
  by_cases h1 : c = '_'
  · subst h1; rfl
  by_cases h2 : c = '$'
  · subst h2; rfl
  by_cases h3 : c = '#'
  · subst h3; rfl
  by_cases h4 : c = '<'
  · subst h4; rfl
  by_cases h5 : c = '>'
  · subst h5; rfl
  simp [texEscape, replaceChar, escMap, h1, h2, h3, h4, h5]

theorem texEscape_nil : texEscape [] = [] := rfl

theorem texEscape_flatMap (s : List Char) : texEscape s = s.flatMap escMap := by
  induction s with
  | nil => rfl
  | cons c cs ih => rw [texEscape_cons, ih, List.flatMap_cons]

/-! ### Helper lemmas about the case-insensitive find and replace loop -/

theorem findCI_some (old text : List Char) (start i : Nat)
    (h : findCI old text start = some i) :
    start ≤ i ∧ i + old.length ≤ text.length ∧ ciMatchAt old text i = true := by
  have h1 := List.find?_some h
  simp only [Bool.and_eq_true, decide_eq_true_eq] at h1
  exact ⟨h1.1.1, h1.1.2, h1.2⟩

theorem findCI_nil (l : List Char) : findCI [] l 0 = some 0 := by
  rw [findCI, List.range_succ_eq_map]
  apply List.find?_cons_of_pos
  simp [ciMatchAt]

theorem ireplaceLoop_none (old new : List Char) (f : Nat) (t : List Char) (idx : Nat)
    (h : findCI old t idx = none) : ireplaceLoop old new (f + 1) t idx = t := by
  unfold ireplaceLoop
  split
  · rfl
  · split
    · rw [h]
    · rfl

theorem findCI_append_none (old a rest : List Char)
    (h : findCI old rest 0 = none) : findCI old (a ++ rest) a.length = none := by
  rw [findCI, List.find?_eq_none] at h ⊢
  intro i hi hp
  simp only [Bool.and_eq_true, decide_eq_true_eq, List.length_append] at hp
  obtain ⟨⟨h1, h2⟩, h3⟩ := hp
  have hj : i - a.length ∈ List.range (rest.length + 1) := by
    simp only [List.mem_range]; omega
  apply h _ hj
  simp only [Bool.and_eq_true, decide_eq_true_eq]
  refine ⟨⟨Nat.zero_le _, by omega⟩, ?_⟩
  have hdrop : (a ++ rest).drop i = rest.drop (i - a.length) := by
    have h4 : i = a.length + (i - a.length) := by omega
    conv_lhs => rw [h4]
    rw [List.drop_append]
  rw [ciMatchAt] at h3 ⊢
  rw [← hdrop]
  exact h3

/-! ### Claim theorems -/

/-- C2 (code bug in `cmdh_noflag`): with `^` currently bound to the flag
name `uppercase`, invoking the NFL handler with flag name "uppercase"
leaves the table unchanged (membership on line 176 tests the NAME against
the trigger CHARACTERS), even though an entry with that flag name is
present.  The claim says that entry is removed. -/
theorem noflag_leaves_bound_name :
    cmdh_noflag flagchars "uppercase" = flagchars ∧
    lookupKey flagchars '^' = some "uppercase" := by
  constructor
  · rfl
  · rfl

/-- C4 (code bug on line 142): on a substitute-flagged line, the macro
`&&month` is replaced with strftime "%M" — the two-digit MINUTE — instead
of the two-digit month: at wall clock 2026-10-12 09:05:07 the output is
"05" (the minute) while the two-digit month is "10". -/
theorem month_macro_inserts_minutes :
    (textline [('&', "substitute")] false clk0 "&&month".toList).1 = two clk0.minute ∧
    two clk0.minute = "05".toList ∧ two clk0.month = "10".toList := by
  refine ⟨by decide, by decide, by decide⟩

/-- C5: outside literal mode, on input containing no registered trigger
character, `textline` rewrites every `_`, `$`, `#` to its backslash-escaped
form and every `<`, `>` to its math-mode form, character by character: the
output is exactly the concatenation of the per-character escape table over
the input, so none of the inserted replacement text is itself re-escaped. -/
theorem textline_escapes_specials (fc : FlagTable) (clk : Clock) (s : List Char)
    (hs : ∀ c ∈ s, lookupKey fc c = none) :
    (textline fc false clk s).1 = s.flatMap escMap := by
  have h : s.foldl (scanChar fc false) initScan = ⟨s, [], false, false, false, []⟩ := by
    rw [scan_plain fc false s initScan rfl rfl (by simpa using hs)]
    rfl
  simp [textline, h, texEscape_flatMap]

/-- Witness for C5: input `a<b>c_d` yields exactly `a$<$b$>$c\_d`. -/
theorem textline_escapes_specials_witness :
    (∀ c ∈ "a<b>c_d".toList, lookupKey flagchars c = none) ∧
    (textline flagchars false clk0 "a<b>c_d".toList).1 = "a$<$b$>$c\\_d".toList := by
  refine ⟨by decide, ?_⟩
  rw [textline_escapes_specials flagchars clk0 _ (by decide)]
  decide

/-- C6: outside literal mode, a trigger bound to `underline` makes
`textline` emit the TeX underline-open fragment at the trigger position and
append the close brace once at the very end of the whole processed line,
after the escaping of the text that follows the trigger. -/
theorem underline_close_at_eol (fc : FlagTable) (clk : Clock) (t : Char)
    (pre post : List Char) (ht : lookupKey fc t = some "underline")
    (hpre : ∀ c ∈ pre, lookupKey fc c = none)
    (hpost : ∀ c ∈ post, lookupKey fc c = none) :
    (textline fc false clk (pre ++ t :: post)).1
      = texEscape pre ++ "\\underline\x7b".toList ++ texEscape post ++ ['\x7d'] := by
  have hfold : (pre ++ t :: post).foldl (scanChar fc false) initScan =
      ⟨(pre ++ "\\underline\x7b".toList) ++ post, ['\x7d'], false, false, false, []⟩ := by
    rw [List.foldl_append, scan_plain fc false pre initScan rfl rfl (by simpa using hpre),
        List.foldl_cons]
    have h1 : scanChar fc false { initScan with so := initScan.so ++ pre } t
        = ⟨pre ++ "\\underline\x7b".toList, ['\x7d'], false, false, false, []⟩ := by
      simp [scanChar, initScan, ht]
    rw [h1, scan_plain fc false post _ rfl rfl (by simpa using hpost)]
  have hop : texEscape "\\underline\x7b".toList = "\\underline\x7b".toList := by decide
  simp [textline, hfold, texEscape_append, hop, texEscape_cons, texEscape_nil, escMap]

/-- Witness for C6: with `!` bound to `underline`, `x!word` becomes
`x\underline{word}` — the close brace at the very end of the line. -/
theorem underline_close_at_eol_witness :
    (textline [('!', "underline")] false clk0 ("x".toList ++ '!' :: "word".toList)).1
      = "x\\underline\x7bword\x7d".toList := by
  rw [underline_close_at_eol [('!', "underline")] clk0 '!' "x".toList "word".toList
    (by decide) (by decide) (by decide)]
  decide

/-- C7: while literal mode is active, `textline` is the identity on its
input: no trigger is interpreted, no substitution happens, no escaping is
applied, and no warning is emitted. -/
theorem textline_literal_identity (fc : FlagTable) (clk : Clock) (s : List Char) :
    textline fc true clk s = (s, []) := by
  have h : s.foldl (scanChar fc true) initScan = ⟨s, [], false, false, false, []⟩ := by
    rw [scan_plain fc true s initScan rfl rfl (by simp)]
    rfl
  simp [textline, h]

/-- C8: the case-insensitive replace (a) is the identity when the text has
no case-insensitive occurrence of the pattern, and (b) when the text has
exactly one occurrence, the result is that occurrence replaced — with the
scan resuming strictly after the inserted replacement, so this holds even
when the replacement itself contains the pattern (no recursive
substitution). -/
theorem ireplace_identity_and_no_rescan (old new text : List Char) :
    (findCI old text 0 = none → ireplace old new text = text) ∧
    (∀ i, findCI old text 0 = some i →
      findCI old (text.drop (i + old.length)) 0 = none →
      ireplace old new text = text.take i ++ new ++ text.drop (i + old.length)) := by
  constructor
  · intro h
    rw [ireplace]
    exact ireplaceLoop_none old new text.length text 0 h
  · intro i hf hn
    have hob : old ≠ [] := by
      intro he
      subst he
      rw [findCI_nil] at hn
      cases hn
    obtain ⟨-, h2, -⟩ := findCI_some old text 0 i hf
    have hol : 0 < old.length := List.length_pos.mpr hob
    have hil : i ≤ text.length := by omega
    rw [ireplace]
    unfold ireplaceLoop
    rw [if_neg (by omega), if_pos (by omega), hf]
    obtain ⟨f, hfl⟩ : ∃ f, text.length = f + 1 := ⟨text.length - 1, by omega⟩
    rw [hfl]
    have ha : (text.take i ++ new).length = i + new.length := by
      simp [List.length_take]
      omega
    have hnone := findCI_append_none old (text.take i ++ new) (text.drop (i + old.length)) hn
    rw [ha] at hnone
    exact ireplaceLoop_none old new f _ _ hnone

/-- Witness for C8: "ab" does not occur in "cd" (identity); replacing "ab"
with "zab" (which contains "ab") in "cab" gives "czab", not a loop or a
second substitution. -/
theorem ireplace_identity_and_no_rescan_witness :
    ireplace "ab".toList "x".toList "cd".toList = "cd".toList ∧
    ireplace "ab".toList "zab".toList "cab".toList = "czab".toList := by
  constructor
  · exact (ireplace_identity_and_no_rescan "ab".toList "x".toList "cd".toList).1 (by decide)
  · have h := (ireplace_identity_and_no_rescan "ab".toList "zab".toList "cab".toList).2
      1 (by decide) (by decide)
    simpa using h

/-- C9: `.LS 3`, `.LS "-"` and `.LS 3,"-"` all parse as LS directives with
their parameters extracted, while `.LS` alone matches no directive shape:
it falls through to the raw-text alternative and, starting with `.`, takes
the fatal unparsed-command exit, leaving later lines unprocessed. -/
theorem ls_shapes_parse :
    classify ".LS 3".toList = .cmd ".LS" [("n", .int 3)] ∧
    classify ".LS \"-\"".toList = .cmd ".LS" [("bullet", .str "\"-\"")] ∧
    classify ".LS 3,\"-\"".toList = .cmd ".LS" [("n", .int 3), ("bullet", .str "\"-\"")] ∧
    runLines clk0 initState 0 [".LS", "after"] =
      { st := initState, out := ["*** Unparsed command: .LS"], err := [],
        halt := some (.exited 1) } := by
  refine ⟨by decide, by decide, by decide, by decide⟩

/-- C3 counterexample: `.AJ` is accepted by the grammar and has no handler,
yet the run does not abort: the diagnostic goes to stderr and the following
line "hi" is still processed, the run ending normally. -/
theorem unhandled_cmd_run_continues_cx :
    runLines clk0 initState 0 [".AJ", "hi"] =
      { st := initState, out := ["hi"],
        err := ["*** Unhandled Cmd [.AJ] PARMS -> \x7b\x7d\n"], halt := none } := by
  decide

/-- C3 amended: a grammar-accepted directive line whose keyword has no
registered handler makes the driver emit one stderr diagnostic naming the
keyword and its extracted parameters and then continue with the remaining
lines, state unchanged — it is not fatal. -/
theorem unhandled_cmd_diag_and_continue (clk : Clock) (st : DocState) (lnum : Nat)
    (line : String) (rest : List String) (kw : String) (d : List (String × PVal))
    (hne : ¬ (pyRstrip line).length = 0)
    (hbn : ¬ (lnum + 1 = 1 ∧ listStartsWith "+-".toList (pyRstrip line).toList = true))
    (hc : classify (pyRstrip line).toList = Classified.cmd kw d)
    (hh : kw ∉ CMD_HANDLERS_keys) :
    runLines clk st lnum (line :: rest) =
      { st := (runLines clk st (lnum + 1) rest).st,
        out := (runLines clk st (lnum + 1) rest).out,
        err := ("*** Unhandled Cmd [" ++ kw ++ "] PARMS -> " ++ pyDictRepr d ++ "\n")
                :: (runLines clk st (lnum + 1) rest).err,
        halt := (runLines clk st (lnum + 1) rest).halt } := by
  have hstep : stepLine clk st (lnum + 1) line =
      { st := st, out := [],
        err := ["*** Unhandled Cmd [" ++ kw ++ "] PARMS -> " ++ pyDictRepr d ++ "\n"],
        halt := none } := by
    simp only [stepLine]
    rw [if_neg hne, if_neg hbn, hc]
    simp only [if_neg hh]
  simp [runLines, hstep]

/-- Witness for the amended C3 at a concrete one-line run. -/
theorem unhandled_cmd_diag_and_continue_witness :
    runLines clk0 initState 0 [".AJ"] =
      { st := initState, out := [],
        err := ["*** Unhandled Cmd [.AJ] PARMS -> \x7b\x7d\n"], halt := none } := by
  rw [unhandled_cmd_diag_and_continue clk0 initState 0 ".AJ" [] ".AJ" []
    (by decide) (by decide) (by decide) (by decide)]
  decide

/-- C10: outside literal mode, a character copied verbatim because the
previous character was the `accept` trigger bypasses only flag
interpretation: the end-of-scan escaping still applies to it, so a special
character after the accept trigger appears escaped, not raw. -/
theorem accept_char_still_escaped (fc : FlagTable) (clk : Clock) (t c : Char)
    (pre post : List Char) (ht : lookupKey fc t = some "accept")
    (hpre : ∀ x ∈ pre, lookupKey fc x = none)
    (hpost : ∀ x ∈ post, lookupKey fc x = none) :
    (textline fc false clk (pre ++ t :: c :: post)).1
      = texEscape pre ++ escMap c ++ texEscape post := by
  have hfold : (pre ++ t :: c :: post).foldl (scanChar fc false) initScan =
      ⟨(pre ++ [c]) ++ post, [], false, false, false, []⟩ := by
    rw [List.foldl_append, scan_plain fc false pre initScan rfl rfl (by simpa using hpre),
        List.foldl_cons]
    have h1 : scanChar fc false { initScan with so := initScan.so ++ pre } t
        = ⟨pre, [], true, false, false, []⟩ := by
      simp [scanChar, initScan, ht]
    rw [h1, List.foldl_cons]
    have h2 : scanChar fc false (⟨pre, [], true, false, false, []⟩ : ScanSt) c
        = ⟨pre ++ [c], [], false, false, false, []⟩ := by
      simp [scanChar]
    rw [h2, scan_plain fc false post _ rfl rfl (by simpa using hpost)]
  simp [textline, hfold, texEscape_append, texEscape_cons, texEscape_nil]

/-! ### C1: bidict lookups under the bijection invariant -/

theorem lookupVal_mem (m : FlagTable) (hv : (m.map (fun p => p.2)).Nodup)
    (c : Char) (v : String) (h : (c, v) ∈ m) : lookupVal m v = some c := by
  cases hfind : m.find? (fun p => p.2 == v) with
  | none =>
      rw [List.find?_eq_none] at hfind
      have hcontra := hfind _ h
      simp at hcontra
  | some p =>
      have hp2 : p.2 = v := by simpa using List.find?_some hfind
      have hpm : p ∈ m := List.mem_of_find?_eq_some hfind
      have hpe : p = (c, v) := List.inj_on_of_nodup_map hv hpm h (by simp [hp2])
      simp [lookupVal, hfind, hpe]

theorem lookupVal_not_mem (m : FlagTable) (v : String)
    (h : ∀ c', (c', v) ∉ m) : lookupVal m v = none := by
  have hf : m.find? (fun p => p.2 == v) = none := by
    rw [List.find?_eq_none]
    intro p hp hpv
    have h2 : p.2 = v := by simpa using hpv
    apply h p.1
    rw [← h2]
    exact hp
  rw [lookupVal, hf]
  rfl

theorem FlagBij_put (m : FlagTable) (c : Char) (v : String) (hm : FlagBij m)
    (hno : ∀ c', (c', v) ∉ m) :
    FlagBij (m.filter (fun p => p.1 != c) ++ [(c, v)]) := by
  obtain ⟨hk, hv⟩ := hm
  constructor
  · rw [List.map_append, List.nodup_append]
    refine ⟨hk.sublist ((List.filter_sublist m).map _), by simp, ?_⟩
    intro x hx hy
    obtain ⟨p, hp, hpx⟩ := List.mem_map.mp hx
    obtain ⟨hpm, hpc⟩ := List.mem_filter.mp hp
    have hxc : x = c := by simpa using hy
    rw [hpx, hxc] at hpc
    simp at hpc
  · rw [List.map_append, List.nodup_append]
    refine ⟨hv.sublist ((List.filter_sublist m).map _), by simp, ?_⟩
    intro x hx hy
    obtain ⟨p, hp, hpx⟩ := List.mem_map.mp hx
    obtain ⟨hpm, -⟩ := List.mem_filter.mp hp
    have hxv : x = v := by simpa using hy
    apply hno p.1
    have hpv : p = (p.1, v) := by
      rw [← hxv, ← hpx]
    rw [← hpv]
    exact hpm

/-- C1 counterexample: with the initial table (`^` bound to `uppercase`),
binding the flag name `uppercase` to the new trigger `U` does not evict the
old trigger: the bidict assignment raises ValueDuplicationError, and in a
run the uncaught exception aborts the program before any later line (the
character `^` is never removed, no post-bind table exists). -/
theorem flag_rebind_raises_cx :
    cmdh_flag flagchars "uppercase" 'U' = Except.error "ValueDuplicationError" ∧
    (runLines clk0 initState 0 [".FL uppercase U", "hi"]).halt
      = some (Halt.raised "ValueDuplicationError") ∧
    (runLines clk0 initState 0 [".FL uppercase U", "hi"]).out = [] := by
  refine ⟨rfl, by decide, by decide⟩

/-- C1 amended: on a bijective table, the FL bind keeps the table a
bijection by evicting only in the key direction: binding a trigger
character that already carries another name drops that old entry and
appends the new pair (still bijective, and the trigger now maps to the new
name); re-binding an already-present pair is a no-op; but binding a flag
name to a NEW trigger while the name is bound to a different character
raises ValueDuplicationError (the run aborts) instead of evicting the old
trigger. -/
theorem cmdh_flag_bind_spec (m : FlagTable) (flag : String) (c : Char)
    (hm : FlagBij m) :
    (∀ c', (c', flag) ∈ m → c' ≠ c →
        cmdh_flag m flag c = Except.error "ValueDuplicationError") ∧
    ((∀ c', (c', flag) ∉ m) →
        cmdh_flag m flag c = Except.ok (m.filter (fun p => p.1 != c) ++ [(c, flag)]) ∧
        FlagBij (m.filter (fun p => p.1 != c) ++ [(c, flag)]) ∧
        lookupKey (m.filter (fun p => p.1 != c) ++ [(c, flag)]) c = some flag) ∧
    ((c, flag) ∈ m → cmdh_flag m flag c = Except.ok m) := by
  obtain ⟨hk, hv⟩ := hm
  refine ⟨?_, ?_, ?_⟩
  · intro c' hmem hne
    simp only [cmdh_flag, bidictPut, lookupVal_mem m hv c' flag hmem]
    rw [if_neg hne]
  · intro hno
    have h1 : lookupVal m flag = none := lookupVal_not_mem m flag hno
    refine ⟨by simp only [cmdh_flag, bidictPut, h1], FlagBij_put m c flag ⟨hk, hv⟩ hno, ?_⟩
    have hf : (m.filter (fun p => p.1 != c)).find? (fun p => p.1 == c) = none := by
      rw [List.find?_eq_none]
      intro p hp
      have hpc := (List.mem_filter.mp hp).2
      simp at hpc
      simpa using hpc
    rw [lookupKey, List.find?_append, hf]
    simp
  · intro hmem
    simp [cmdh_flag, bidictPut, lookupVal_mem m hv c flag hmem]

/-- Witness for the amended C1: binding the fresh name `bold` to the
already-bound trigger `^` evicts `(^, uppercase)`, stays bijective, and
`^` now triggers `bold`. -/
theorem cmdh_flag_bind_spec_witness :
    cmdh_flag flagchars "bold" '^'
      = Except.ok (flagchars.filter (fun p => p.1 != '^') ++ [('^', "bold")]) ∧
    FlagBij (flagchars.filter (fun p => p.1 != '^') ++ [('^', "bold")]) ∧
    lookupKey (flagchars.filter (fun p => p.1 != '^') ++ [('^', "bold")]) '^'
      = some "bold" :=
  (cmdh_flag_bind_spec flagchars "bold" '^' (by decide)).2.1
    (fun c' hc => by simp [flagchars] at hc)

/-- Witness for C10: with `!` bound to `accept`, input `a!_b` still escapes
the underscore: the output is `a\_b`. -/
theorem accept_char_still_escaped_witness :
    (textline [('!', "accept")] false clk0 ("a".toList ++ '!' :: '_' :: "b".toList)).1
      = "a\\_b".toList := by
  rw [accept_char_still_escaped [('!', "accept")] clk0 '!' '_' "a".toList "b".toList
    (by decide) (by decide) (by decide)]
  decide

end Roff2Tex
